import Mathlib

/-!
Verification of the incremental Delaunay triangulator (`src/Vertex.rs`,
`src/triangle.rs`, `src/triangulator.rs`) against its specification.

Modelling conventions:
* `f64` coordinates are modelled as exact rationals (`ℚ`).
* Rust panics and the out-of-fuel result of the loops are modelled by the
  `Err` sum; every state-mutating operation returns `Except (Err × Triangulator)
  Triangulator`, where an error carries the state at the moment the panic fires.
* `HashSet`/`HashMap` are modelled as lists in first-insertion order; the list
  order instantiates the unspecified iteration order of the Rust collections.
* `Vec` operations are modelled literally on lists with index 0 the front of
  the vector, so `Vec::pop` takes the last list element.
-/

namespace Delaunay

/-- A 2D point; `is_ghost` marks the ghost sentinel (`src/Vertex.rs`).
`Vertex::new_ghost` gives the ghost the coordinates `(0, 0)`.
Equality (the `PartialEq`/`Eq`/`Hash` impls are not under `src/`) is modelled
from the spec as value equality on `(x, y, is_ghost)`: §6 specifies deletion
"by value equality on coordinates" and §3 permits multiple allocations of
equivalent ghosts. -/
structure Vertex where
  x : ℚ
  y : ℚ
  is_ghost : Bool
deriving DecidableEq

/-- `Vertex::new`. -/
def Vertex.new (x y : ℚ) : Vertex := ⟨x, y, false⟩

/-- `Vertex::new_ghost`. -/
def Vertex.new_ghost : Vertex := ⟨0, 0, true⟩

/-- The panics of the source and the out-of-fuel marker of the loop models.
`emptyPop` is `Vec::pop().unwrap()` on an empty vector, `adjacencyMissing` is
`adjacency.get(..).unwrap()` on an absent key, the remaining constructors name
the explicit `panic!` calls of `src/triangulator.rs` / `src/Vertex.rs`. -/
inductive Err where
  | badInput
  | missingConflict
  | boundaryDeletion
  | removeUnknown
  | noConflict
  | adjacencyMissing
  | emptyPop
  | fuel
deriving DecidableEq

/-- `Vertex::from_coordinates` (`src/Vertex.rs`): fails on an odd-length
array, otherwise pairs consecutive entries into non-ghost vertices. -/
def Vertex.from_coordinates (raw : List ℚ) : Except Err (List Vertex) :=
  if raw.length % 2 ≠ 0 then .error .badInput
  else .ok ((List.range (raw.length / 2)).map fun i =>
    ⟨raw.getD (2 * i) 0, raw.getD (2 * i + 1) 0, false⟩)

/-- Three-valued orientation (`orientation.rs`). -/
inductive Orientation where
  | counterclockwise
  | clockwise
  | colinear
deriving DecidableEq

/-- Three-valued circumcircle containment (`continence.rs`). -/
inductive Continence where
  | inside
  | outside
  | boundary
deriving DecidableEq

/-- Modelled from the spec: `orientation.rs` is not under `src/`.  §4.2 defines
`orient_2d(a, b, c)` as the sign of `((b.x−a.x)(c.y−a.y) − (b.y−a.y)(c.x−a.x))`,
with zero mapped to `Colinear`. -/
def orient_2d (a b c : Vertex) : Orientation :=
  let det := (b.x - a.x) * (c.y - a.y) - (b.y - a.y) * (c.x - a.x)
  if 0 < det then .counterclockwise
  else if det < 0 then .clockwise
  else .colinear

/-- Modelled from the spec: `continence.rs` is not under `src/`.  §4.2 defines
`in_circle(a, b, c, d)` as the sign of the standard in-circle determinant for a
CCW triple `(a, b, c)`, with zero mapped to `Boundary`. -/
def in_circle (a b c d : Vertex) : Continence :=
  let adx := a.x - d.x
  let ady := a.y - d.y
  let bdx := b.x - d.x
  let bdy := b.y - d.y
  let cdx := c.x - d.x
  let cdy := c.y - d.y
  let det :=
    (adx * adx + ady * ady) * (bdx * cdy - cdx * bdy) -
    (bdx * bdx + bdy * bdy) * (adx * cdy - cdx * ady) +
    (cdx * cdx + cdy * cdy) * (adx * bdy - bdx * ady)
  if 0 < det then .inside
  else if det < 0 then .outside
  else .boundary

/-- Ordered vertex triple (`src/triangle.rs`). -/
structure Triangle where
  v1 : Vertex
  v2 : Vertex
  v3 : Vertex
deriving DecidableEq

/-- The rotation-invariant equality of `impl PartialEq for Triangle`
(`src/triangle.rs`): equal under cyclic rotation, distinct under reflection. -/
def Triangle.teq (t u : Triangle) : Bool :=
  decide ((t.v1 = u.v1 ∧ t.v2 = u.v2 ∧ t.v3 = u.v3) ∨
          (t.v1 = u.v2 ∧ t.v2 = u.v3 ∧ t.v3 = u.v1) ∨
          (t.v1 = u.v3 ∧ t.v2 = u.v1 ∧ t.v3 = u.v2))

/-- `Triangle::is_ghost` (`src/triangle.rs`): any vertex is a ghost. -/
def Triangle.is_ghost (t : Triangle) : Bool :=
  t.v1.is_ghost || t.v2.is_ghost || t.v3.is_ghost

/-- `Triangle::encircles` (`src/triangle.rs`): in-circle test for solid
triangles, open half-plane test (`orient_2d` of the solid edge) for ghosts. -/
def Triangle.encircles (t : Triangle) (p : Vertex) : Continence :=
  if !t.is_ghost then
    in_circle t.v1 t.v2 t.v3 p
  else
    match orient_2d t.v1 t.v2 p with
    | .counterclockwise => .inside
    | _ => .outside

/-- The `Triangulator` state (`src/triangulator.rs`): pending vertices, the
triangle set, the conflict map and the directed-edge adjacency map. -/
structure Triangulator where
  vertices : List Vertex
  triangles : List Triangle
  conflict_map : List (Triangle × Vertex)
  adjacency : List ((Vertex × Vertex) × Triangle)
deriving DecidableEq

/-- `HashSet<Rc<Triangle>>::contains`, under the rotation-invariant equality. -/
def trisContains (l : List Triangle) (t : Triangle) : Bool :=
  l.any (fun u => Triangle.teq t u)

/-- `HashSet<Rc<Triangle>>::insert`: no-op when an equal triangle is present. -/
def trisInsert (l : List Triangle) (t : Triangle) : List Triangle :=
  if trisContains l t then l else l ++ [t]

/-- `HashSet<Rc<Triangle>>::remove`: drops the (unique) equal element. -/
def trisRemove (l : List Triangle) (t : Triangle) : List Triangle :=
  l.eraseP (fun u => Triangle.teq t u)

/-- `conflict_map` lookup (`HashMap::get` / the key side of `remove`). -/
def cmapFind (m : List (Triangle × Vertex)) (t : Triangle) : Option Vertex :=
  (m.find? (fun e => Triangle.teq t e.1)).map (·.2)

/-- `conflict_map` insertion (`HashMap::insert`): overwrite or append. -/
def cmapInsert (m : List (Triangle × Vertex)) (t : Triangle) (v : Vertex) :
    List (Triangle × Vertex) :=
  if m.any (fun e => Triangle.teq t e.1) then
    m.map (fun e => if Triangle.teq t e.1 then (e.1, v) else e)
  else m ++ [(t, v)]

/-- `conflict_map` removal (`HashMap::remove`, dropping the entry). -/
def cmapErase (m : List (Triangle × Vertex)) (t : Triangle) :
    List (Triangle × Vertex) :=
  m.eraseP (fun e => Triangle.teq t e.1)

/-- `adjacency` lookup (`HashMap::get` on a directed edge). -/
def adjFind (m : List ((Vertex × Vertex) × Triangle)) (k : Vertex × Vertex) :
    Option Triangle :=
  (m.find? (fun e => decide (e.1 = k))).map (·.2)

/-- `adjacency` insertion (`HashMap::insert`): overwrite or append. -/
def adjInsert (m : List ((Vertex × Vertex) × Triangle)) (k : Vertex × Vertex)
    (t : Triangle) : List ((Vertex × Vertex) × Triangle) :=
  if m.any (fun e => decide (e.1 = k)) then
    m.map (fun e => if e.1 = k then (k, t) else e)
  else m ++ [(k, t)]

/-- `adjacency` removal (`HashMap::remove`). -/
def adjErase (m : List ((Vertex × Vertex) × Triangle)) (k : Vertex × Vertex) :
    List ((Vertex × Vertex) × Triangle) :=
  m.eraseP (fun e => decide (e.1 = k))

/-- `Vec::pop`: the last element and the remaining vector. -/
def popBack {α : Type} (l : List α) : Option (α × List α) :=
  match l.getLast? with
  | none => none
  | some x => some (x, l.dropLast)

/-- `Triangulator::include_inner_adjacency`: register the three directed
edges of the triangle. -/
def include_inner_adjacency (s : Triangulator) (t : Triangle) : Triangulator :=
  { s with adjacency :=
      adjInsert (adjInsert (adjInsert s.adjacency (t.v1, t.v2) t)
        (t.v2, t.v3) t) (t.v3, t.v1) t }

/-- `Triangulator::remove_inner_adjacency`: drop the three directed edges. -/
def remove_inner_adjacency (s : Triangulator) (t : Triangle) : Triangulator :=
  { s with adjacency :=
      adjErase (adjErase (adjErase s.adjacency (t.v1, t.v2))
        (t.v2, t.v3)) (t.v3, t.v1) }

/-- `Triangulator::include_triangle`: register the edges, then either pair the
triangle with the first pending vertex inside its circumcircle region
(moving that vertex out of `vertices` and the pair into `conflict_map`) or add
the triangle to `triangles`. -/
def include_triangle (s : Triangulator) (t : Triangle) : Triangulator :=
  let s' := include_inner_adjacency s t
  match s'.vertices.findIdx? (fun v => decide (t.encircles v = Continence.inside)) with
  | some i =>
      { s' with
        vertices := s'.vertices.eraseIdx i,
        conflict_map := cmapInsert s'.conflict_map t (s'.vertices.getD i Vertex.new_ghost) }
  | none => { s' with triangles := trisInsert s'.triangles t }

/-- `Triangulator::remove_triangle`: drop the edges, then remove the triangle
from `triangles`, or move its conflict vertex back to `vertices`, or panic. -/
def remove_triangle (s : Triangulator) (t : Triangle) :
    Except (Err × Triangulator) Triangulator :=
  let s' := remove_inner_adjacency s t
  if trisContains s'.triangles t then
    .ok { s' with triangles := trisRemove s'.triangles t }
  else
    match cmapFind s'.conflict_map t with
    | some v =>
        .ok { s' with
              conflict_map := cmapErase s'.conflict_map t,
              vertices := s'.vertices ++ [v] }
    | none => .error (.removeUnknown, s')

/-- The `loop` body of `Triangulator::handle_conflict` digging the cavity for
`p`: pop a pending edge from the back, look across it, either swallow the
outer triangle (pushing its two remaining edges) or emit the replacement
triangle with the ghost-aware orientation rules.  `fuel` bounds the number of
iterations; exhaustion yields `Err.fuel`. -/
def cavityLoop (p : Vertex) :
    Nat → Triangulator → List (Vertex × Vertex) →
    Except (Err × Triangulator) Triangulator
  | fuel, s, pend =>
    match popBack pend with
    | none => .ok s
    | some ((v_begin, v_end), pend') =>
      match fuel with
      | 0 => .error (.fuel, s)
      | fuel + 1 =>
        match adjFind s.adjacency (v_end, v_begin) with
        | none => .error (.adjacencyMissing, s)
        | some outer =>
          if outer.encircles p = Continence.inside then
            match remove_triangle s outer with
            | .error es => .error es
            | .ok s' =>
              let pend'' :=
                if outer.v1 = v_begin then
                  pend' ++ [(outer.v1, outer.v2), (outer.v2, outer.v3)]
                else if outer.v2 = v_begin then
                  pend' ++ [(outer.v2, outer.v3), (outer.v3, outer.v1)]
                else
                  pend' ++ [(outer.v3, outer.v1), (outer.v1, outer.v2)]
              cavityLoop p fuel s' pend''
          else
            let t :=
              if v_begin.is_ghost then Triangle.mk v_end p v_begin
              else if v_end.is_ghost then Triangle.mk p v_begin v_end
              else Triangle.mk v_begin v_end p
            cavityLoop p fuel (include_triangle s t) pend'

/-- `Triangulator::handle_conflict`: panic on an empty map, otherwise take one
entry (the head instantiates the arbitrary `keys().next()`), drop its
adjacency, and dig the cavity starting from its three edges. -/
def handle_conflict (fuel : Nat) (s : Triangulator) :
    Except (Err × Triangulator) Triangulator :=
  match s.conflict_map with
  | [] => .error (.noConflict, s)
  | (t, p) :: rest =>
    let s' := remove_inner_adjacency { s with conflict_map := rest } t
    cavityLoop p fuel s' [(t.v1, t.v2), (t.v2, t.v3), (t.v3, t.v1)]

/-- The `while self.conflict_map.len() > 0` loop of `Triangulator::triangulate`. -/
def drainConflicts : Nat → Triangulator → Except (Err × Triangulator) Triangulator
  | fuel, s =>
    if s.conflict_map.isEmpty then .ok s
    else
      match fuel with
      | 0 => .error (.fuel, s)
      | fuel + 1 =>
        match handle_conflict fuel s with
        | .error es => .error es
        | .ok s' => drainConflicts fuel s'

/-- The `loop` of `Triangulator::init` searching for a non-colinear seed
triple: on `Colinear` the current `v3` is pushed to the front of the vertex
vector and a fresh `v3` popped from the back. -/
def initLoop : Nat → Vertex → Vertex → Vertex → List Vertex →
    Except Err (Vertex × Vertex × Vertex × List Vertex)
  | 0, _, _, _, _ => .error .fuel
  | fuel + 1, v1, v2, v3, vs =>
    match orient_2d v1 v2 v3 with
    | .counterclockwise => .ok (v1, v2, v3, vs)
    | .clockwise => .ok (v1, v3, v2, vs)
    | .colinear =>
      match popBack (v3 :: vs) with
      | none => .error .emptyPop
      | some (v3', vs') => initLoop fuel v1 v2 v3' vs'

/-- `Triangulator::init`: pop three vertices from the back, find a CCW seed,
then include the solid seed triangle and its three ghost triangles. -/
def Triangulator.init (fuel : Nat) (s : Triangulator) :
    Except (Err × Triangulator) Triangulator :=
  match popBack s.vertices with
  | none => .error (.emptyPop, s)
  | some (v3, r1) =>
    match popBack r1 with
    | none => .error (.emptyPop, { s with vertices := r1 })
    | some (v2, r2) =>
      match popBack r2 with
      | none => .error (.emptyPop, { s with vertices := r2 })
      | some (v1, r3) =>
        match initLoop fuel v1 v2 v3 r3 with
        | .error e => .error (e, { s with vertices := r3 })
        | .ok (w1, w2, w3, rest) =>
          let s1 : Triangulator := { s with vertices := rest }
          let solid := Triangle.mk w1 w2 w3
          let g1 := Triangle.mk w2 w1 Vertex.new_ghost
          let g2 := Triangle.mk w3 w2 Vertex.new_ghost
          let g3 := Triangle.mk w1 w3 Vertex.new_ghost
          .ok (include_triangle (include_triangle (include_triangle
            (include_triangle s1 solid) g1) g2) g3)

/-- `Triangulator::triangulate`: initialize when the mesh holds no triangle
and no conflict, then drain the conflict map. -/
def Triangulator.triangulate (fuel : Nat) (s : Triangulator) :
    Except (Err × Triangulator) Triangulator :=
  if s.triangles.length + s.conflict_map.length = 0 then
    match s.init fuel with
    | .error es => .error es
    | .ok s' => drainConflicts fuel s'
  else drainConflicts fuel s

/-- `Triangulator::from_vertices`. -/
def Triangulator.from_vertices (vs : List Vertex) : Triangulator :=
  ⟨vs, [], [], []⟩

/-- `Triangulator::from_coordinates`. -/
def Triangulator.from_coordinates (raw : List ℚ) : Except Err Triangulator :=
  match Vertex.from_coordinates raw with
  | .error e => .error e
  | .ok vs => .ok (Triangulator.from_vertices vs)

/-- `Triangulator::insert_vertex`: find any triangle whose region contains
`p` strictly, move it into the conflict map, and run `handle_conflict` once;
panic with `MissingConflict` when no triangle contains `p`. -/
def Triangulator.insert_vertex (fuel : Nat) (s : Triangulator) (p : Vertex) :
    Except (Err × Triangulator) Triangulator :=
  match s.triangles.find? (fun t => decide (t.encircles p = Continence.inside)) with
  | some t =>
      handle_conflict fuel
        { s with
          triangles := trisRemove s.triangles t,
          conflict_map := cmapInsert s.conflict_map t p }
  | none => .error (.missingConflict, s)

/-- The star filter of `Triangulator::delete_vertex`: the mesh triangles
having `p` as one of their three vertices. -/
def starOf (s : Triangulator) (p : Vertex) : List Triangle :=
  s.triangles.filter (fun t =>
    decide (t.v1 = p) || decide (t.v2 = p) || decide (t.v3 = p))

/-- The removal for-loop of `Triangulator::delete_vertex`: `remove_triangle`
on each star triangle in turn. -/
def removeStar : Triangulator → List Triangle →
    Except (Err × Triangulator) Triangulator
  | s, [] => .ok s
  | s, t :: rest =>
    match remove_triangle s t with
    | .error es => .error es
    | .ok s' => removeStar s' rest

/-- `HashSet<Rc<Vertex>>::insert` in first-insertion order. -/
def vertsInsert (l : List Vertex) (v : Vertex) : List Vertex :=
  if v ∈ l then l else l ++ [v]

/-- The vertex-collecting loops of `delete_vertex` and `export`: the distinct
vertices of the listed triangles, in first-insertion order. -/
def collectVerts (ts : List Triangle) : List Vertex :=
  ts.foldl (fun acc t =>
    vertsInsert (vertsInsert (vertsInsert acc t.v1) t.v2) t.v3) []

/-- `Triangulator::merge_triangles`: insert the solid triangles of `other`
into `triangles` and copy every adjacency entry of `other` (ghost-keyed
entries included) into `adjacency`. -/
def merge_triangles (s other : Triangulator) : Triangulator :=
  let solids := other.triangles.filter (fun t => !t.is_ghost)
  { s with
    triangles := solids.foldl trisInsert s.triangles,
    adjacency := other.adjacency.foldl (fun m e => adjInsert m e.1 e.2) s.adjacency }

/-- `Triangulator::delete_vertex`: a never-placed vertex is simply dropped
from `vertices`; otherwise collect the star, panic when it holds a ghost,
remove it, re-triangulate the ring of neighbor vertices in a fresh inner
triangulator and merge the result back. -/
def Triangulator.delete_vertex (fuel : Nat) (s : Triangulator) (p : Vertex) :
    Except (Err × Triangulator) Triangulator :=
  match s.vertices.findIdx? (fun v => decide (v = p)) with
  | some i => .ok { s with vertices := s.vertices.eraseIdx i }
  | none =>
    let star := starOf s p
    if star.any Triangle.is_ghost then .error (.boundaryDeletion, s)
    else
      match removeStar s star with
      | .error es => .error es
      | .ok s1 =>
        let ring := (collectVerts star).filter (fun v => !decide (v = p))
        match (Triangulator.from_vertices ring).triangulate fuel with
        | .error (e, _) => .error (e, s1)
        | .ok inner => .ok (merge_triangles s1 inner)

/-- Modelled from the spec: the `Ord` instance on `Vertex` used by
`vertices_vec.sort()` in `export` is not under `src/` (the helper
`Vertex::sort` is unused there); §4.1 defines the total order as
lexicographic on `(x, y)`. -/
def vle (a b : Vertex) : Prop :=
  a.x < b.x ∨ (a.x = b.x ∧ a.y ≤ b.y)

instance : DecidableRel vle := fun a b => by
  unfold vle; infer_instance

/-- The strict lexicographic order on coordinates. -/
def vlt (a b : Vertex) : Prop :=
  a.x < b.x ∨ (a.x = b.x ∧ a.y < b.y)

instance : DecidableRel vlt := fun a b => by
  unfold vlt; infer_instance

/-- The solid-triangle filter of `Triangulator::export`. -/
def solidList (s : Triangulator) : List Triangle :=
  s.triangles.filter (fun t => !t.is_ghost)

/-- The sorted referenced-vertex list of `Triangulator::export`. -/
def sortedVerts (s : Triangulator) : List Vertex :=
  (collectVerts (solidList s)).insertionSort vle

/-- `vertices_index_mapping.get(&v).unwrap()`: the index of `v` in the sorted
vertex list. -/
def vidx (l : List Vertex) (v : Vertex) : Nat :=
  l.findIdx (fun u => decide (u = v))

/-- The export rotation of one solid triangle's index triple: the branch on
`min_index` of `Triangulator::export` (with `i1, i2, i3` the indices of
`v1, v2, v3` and the test against the minimum of the three). -/
def canonTriple (l : List Vertex) (t : Triangle) : List Nat :=
  if min (vidx l t.v1) (min (vidx l t.v2) (vidx l t.v3)) = vidx l t.v1 then
    [vidx l t.v1, vidx l t.v2, vidx l t.v3]
  else if min (vidx l t.v1) (min (vidx l t.v2) (vidx l t.v3)) = vidx l t.v2 then
    [vidx l t.v2, vidx l t.v3, vidx l t.v1]
  else [vidx l t.v3, vidx l t.v1, vidx l t.v2]

/-- The exported `Triangulation` (flat coordinates and index triples). -/
structure Triangulation where
  coordinates : List ℚ
  triangles : List Nat
deriving DecidableEq

/-- `Triangulator::export` (the Lean keyword `export` forces the renaming):
solid triangles only, vertices sorted and flattened, each triangle emitted as
its canonical rotation. -/
def exportMesh (s : Triangulator) : Triangulation :=
  let verts := sortedVerts s
  { coordinates := (verts.map (fun v => [v.x, v.y])).flatten,
    triangles := ((solidList s).map (canonTriple verts)).flatten }

/-- The error component of a result, when any. -/
def errKind {α : Type} : Except (Err × α) α → Option Err
  | .error (e, _) => some e
  | .ok _ => none

/-- The final state of a run: the result state, or the carried state on a
panic. -/
def okStateD : Except (Err × Triangulator) Triangulator → Triangulator
  | .ok s => s
  | .error (_, s) => s

deriving instance DecidableEq for Except

/-! ### C7: `encircles` versus the predicates -/

/-- C7: for a solid triangle `encircles` is exactly `in_circle` on its vertex
triple; for a ghost triangle it is `Inside` exactly when `orient_2d` of the
solid edge `v1 → v2` is CCW and `Outside` in every other case (a point
colinear with the hull edge included), and `Boundary` is never returned. -/
theorem claim_C7 (t : Triangle) (p : Vertex) :
    (t.is_ghost = false → t.encircles p = in_circle t.v1 t.v2 t.v3 p) ∧
    (t.is_ghost = true →
      (t.encircles p = Continence.inside ↔
        orient_2d t.v1 t.v2 p = Orientation.counterclockwise) ∧
      (orient_2d t.v1 t.v2 p ≠ Orientation.counterclockwise →
        t.encircles p = Continence.outside) ∧
      t.encircles p ≠ Continence.boundary) := by
  unfold Triangle.encircles
  constructor
  · intro h
    rw [h]
    rfl
  · intro h
    rw [h]
    cases ho : orient_2d t.v1 t.v2 p <;> simp [ho]

/-- Witness for C7 at a concrete solid triangle and a concrete ghost
triangle. -/
theorem claim_C7_witness :
    (Triangle.mk (Vertex.new 0 0) (Vertex.new 2 0) (Vertex.new 1 2)).encircles
        (Vertex.new 1 1) =
      in_circle (Vertex.new 0 0) (Vertex.new 2 0) (Vertex.new 1 2) (Vertex.new 1 1) ∧
    ((Triangle.mk (Vertex.new 0 0) (Vertex.new 1 0) Vertex.new_ghost).encircles
        (Vertex.new 1 1) = Continence.inside ↔
      orient_2d (Vertex.new 0 0) (Vertex.new 1 0) (Vertex.new 1 1) =
        Orientation.counterclockwise) :=
  ⟨(claim_C7 _ _).1 (by decide), ((claim_C7 _ _).2 (by decide)).1⟩

/-! ### C8: `from_coordinates` -/

/-- C8: an odd-length flat array is rejected with `BadInput` (by
`Vertex::from_coordinates`, hence by `Triangulator::from_coordinates`); an
even length `2·n` yields exactly `n` non-ghost vertices, vertex `i` carrying
the coordinates `(raw[2i], raw[2i+1])`. -/
theorem claim_C8 (raw : List ℚ) :
    (raw.length % 2 = 1 →
      Vertex.from_coordinates raw = .error .badInput ∧
      Triangulator.from_coordinates raw = .error .badInput) ∧
    (∀ n : ℕ, raw.length = 2 * n →
      ∃ l, Vertex.from_coordinates raw = .ok l ∧ l.length = n ∧
        (∀ i, i < n → l.getD i Vertex.new_ghost =
          ⟨raw.getD (2 * i) 0, raw.getD (2 * i + 1) 0, false⟩) ∧
        ∀ v ∈ l, v.is_ghost = false) := by
  constructor
  · intro hodd
    have hne : raw.length % 2 ≠ 0 := by omega
    exact ⟨by unfold Vertex.from_coordinates; rw [if_pos hne],
      by unfold Triangulator.from_coordinates Vertex.from_coordinates; rw [if_pos hne]⟩
  · intro n hn
    have he : ¬raw.length % 2 ≠ 0 := by omega
    have hdiv : raw.length / 2 = n := by omega
    refine ⟨_, by unfold Vertex.from_coordinates; rw [if_neg he], ?_, ?_, ?_⟩
    · simp [hdiv]
    · intro i hi
      have hil : i < ((List.range (raw.length / 2)).map fun j =>
          (⟨raw.getD (2 * j) 0, raw.getD (2 * j + 1) 0, false⟩ : Vertex)).length := by
        simpa [hdiv] using hi
      rw [List.getD_eq_getElem _ _ hil]
      simp [hdiv]
    · intro v hv
      rcases List.mem_map.mp hv with ⟨j, _, rfl⟩
      rfl

/-- Witness for C8: the spec's odd-length input is rejected, and a concrete
even-length input is decoded pairwise. -/
theorem claim_C8_witness :
    Vertex.from_coordinates [0, 0, 1, 0, 2] = .error .badInput ∧
    ∃ l, Vertex.from_coordinates [0, 1, 4, 5] = .ok l ∧ l.length = 2 ∧
      (∀ i, i < 2 → l.getD i Vertex.new_ghost =
        ⟨[(0 : ℚ), 1, 4, 5].getD (2 * i) 0, [(0 : ℚ), 1, 4, 5].getD (2 * i + 1) 0, false⟩) ∧
      ∀ v ∈ l, v.is_ghost = false :=
  ⟨((claim_C8 [0, 0, 1, 0, 2]).1 (by decide)).1,
   (claim_C8 [0, 1, 4, 5]).2 2 (by decide)⟩

/-! ### C9: `triangulate` is idempotent on a drained state -/

/-- C9: when the conflict map and the pending-vertex list are empty and the
mesh holds at least one triangle, `triangulate()` leaves the whole state
unchanged. -/
theorem claim_C9 (fuel : Nat) (s : Triangulator)
    (hconf : s.conflict_map = []) (_hverts : s.vertices = [])
    (htris : s.triangles ≠ []) :
    s.triangulate fuel = .ok s := by
  unfold Triangulator.triangulate
  have h1 : ¬(s.triangles.length + s.conflict_map.length = 0) := by
    simpa [hconf] using htris
  rw [if_neg h1]
  unfold drainConflicts
  simp [hconf]

/-- Witness for C9 at a one-triangle state. -/
theorem claim_C9_witness :
    (Triangulator.mk [] [Triangle.mk (Vertex.new 0 0) (Vertex.new 2 0) (Vertex.new 1 2)] [] []).conflict_map = [] ∧
    (Triangulator.mk [] [Triangle.mk (Vertex.new 0 0) (Vertex.new 2 0) (Vertex.new 1 2)] [] []).triangulate 0 =
      .ok (Triangulator.mk [] [Triangle.mk (Vertex.new 0 0) (Vertex.new 2 0) (Vertex.new 1 2)] [] []) :=
  ⟨rfl, claim_C9 0 _ rfl rfl (by decide)⟩

/-! ### C5: deleting a hull vertex -/

/-- C5: for a placed vertex whose star holds a ghost triangle, `delete_vertex`
panics with `BoundaryDeletion`; the panic fires on the unmodified state,
before any star triangle is removed (the error carries the untouched state). -/
theorem claim_C5 (fuel : Nat) (s : Triangulator) (p : Vertex)
    (hnp : p ∉ s.vertices)
    (hg : (starOf s p).any Triangle.is_ghost = true) :
    s.delete_vertex fuel p = .error (.boundaryDeletion, s) := by
  have h1 : s.vertices.findIdx? (fun v => decide (v = p)) = none := by
    rw [List.findIdx?_eq_none_iff]
    intro v hv
    exact decide_eq_false fun h => hnp (h ▸ hv)
  unfold Triangulator.delete_vertex
  rw [h1]
  simp [hg]

/-! ### C10: deleting an absent vertex -/

/-- C10: for a vertex that is neither pending nor a vertex of any mesh
triangle, `delete_vertex` panics (the empty star leads to an inner
triangulator over an empty vertex list, whose `init` pops from an empty
vector) instead of being a no-op or reporting a dedicated error. -/
theorem claim_C10 (fuel : Nat) (s : Triangulator) (p : Vertex)
    (hnp : p ∉ s.vertices)
    (hstar : ∀ t ∈ s.triangles, ¬(t.v1 = p ∨ t.v2 = p ∨ t.v3 = p)) :
    s.delete_vertex fuel p = .error (.emptyPop, s) := by
  have h1 : s.vertices.findIdx? (fun v => decide (v = p)) = none := by
    rw [List.findIdx?_eq_none_iff]
    intro v hv
    exact decide_eq_false fun h => hnp (h ▸ hv)
  have hsf : starOf s p = [] := by
    unfold starOf
    rw [List.filter_eq_nil_iff]
    intro t ht
    have h := hstar t ht
    simp only [Bool.or_eq_true, decide_eq_true_eq]
    tauto
  have htri : (Triangulator.from_vertices []).triangulate fuel =
      .error (.emptyPop, Triangulator.from_vertices []) := by
    unfold Triangulator.triangulate Triangulator.init
    simp [popBack, Triangulator.from_vertices]
  unfold Triangulator.delete_vertex
  rw [h1, hsf]
  simp [removeStar, collectVerts, htri]

/-- Witness for C5: deleting the hull vertex `(2, 0)` of the triangulated
four-point mesh panics with `BoundaryDeletion` on the untouched state. -/
theorem claim_C5_witness :
    Vertex.new 2 0 ∉ (okStateD ((Triangulator.from_vertices
      [Vertex.new 0 0, Vertex.new 2 0, Vertex.new 1 2,
       Vertex.new 1 1]).triangulate 100)).vertices ∧
    (starOf (okStateD ((Triangulator.from_vertices
      [Vertex.new 0 0, Vertex.new 2 0, Vertex.new 1 2,
       Vertex.new 1 1]).triangulate 100)) (Vertex.new 2 0)).any Triangle.is_ghost
      = true ∧
    (okStateD ((Triangulator.from_vertices
      [Vertex.new 0 0, Vertex.new 2 0, Vertex.new 1 2,
       Vertex.new 1 1]).triangulate 100)).delete_vertex 100 (Vertex.new 2 0) =
      .error (.boundaryDeletion, okStateD ((Triangulator.from_vertices
        [Vertex.new 0 0, Vertex.new 2 0, Vertex.new 1 2,
         Vertex.new 1 1]).triangulate 100)) :=
  ⟨by with_unfolding_all decide, by with_unfolding_all decide,
   claim_C5 100 _ _ (by with_unfolding_all decide)
     (by with_unfolding_all decide)⟩

/-- Witness for C10: deleting the absent vertex `(5, 5)` from the
triangulated three-point mesh panics via the inner triangulator's empty pop. -/
theorem claim_C10_witness :
    Vertex.new 5 5 ∉ (okStateD ((Triangulator.from_vertices
      [Vertex.new 0 0, Vertex.new 2 0, Vertex.new 1 2]).triangulate 100)).vertices ∧
    (∀ t ∈ (okStateD ((Triangulator.from_vertices
      [Vertex.new 0 0, Vertex.new 2 0, Vertex.new 1 2]).triangulate 100)).triangles,
      ¬(t.v1 = Vertex.new 5 5 ∨ t.v2 = Vertex.new 5 5 ∨ t.v3 = Vertex.new 5 5)) ∧
    (okStateD ((Triangulator.from_vertices
      [Vertex.new 0 0, Vertex.new 2 0, Vertex.new 1 2]).triangulate 100)).delete_vertex
        100 (Vertex.new 5 5) =
      .error (.emptyPop, okStateD ((Triangulator.from_vertices
        [Vertex.new 0 0, Vertex.new 2 0, Vertex.new 1 2]).triangulate 100)) :=
  ⟨by with_unfolding_all decide, by with_unfolding_all decide,
   claim_C10 100 _ _ (by with_unfolding_all decide)
     (by with_unfolding_all decide)⟩

/-! ### C1: all-colinear input makes the seed loop run forever -/

/-- Three points on a common line `A·x + B·y = C` are `Colinear` under
`orient_2d`. -/
lemma orient_2d_of_line {A B C : ℚ} (hAB : ¬(A = 0 ∧ B = 0)) (a b c : Vertex)
    (ha : A * a.x + B * a.y = C) (hb : A * b.x + B * b.y = C)
    (hc : A * c.x + B * c.y = C) :
    orient_2d a b c = .colinear := by
  have hdet : (b.x - a.x) * (c.y - a.y) - (b.y - a.y) * (c.x - a.x) = 0 := by
    rcases not_and_or.mp hAB with hA | hB
    · have h := mul_eq_zero.mp
        (show A * ((b.x - a.x) * (c.y - a.y) - (b.y - a.y) * (c.x - a.x)) = 0 by
          linear_combination (c.y - a.y) * hb - (c.y - a.y) * ha -
            (b.y - a.y) * hc + (b.y - a.y) * ha)
      tauto
    · have h := mul_eq_zero.mp
        (show B * ((b.x - a.x) * (c.y - a.y) - (b.y - a.y) * (c.x - a.x)) = 0 by
          linear_combination (b.x - a.x) * hc - (b.x - a.x) * ha -
            (c.x - a.x) * hb + (c.x - a.x) * ha)
      tauto
  unfold orient_2d
  simp [hdet]

/-- The seed loop of `init` never terminates when every queued point lies on
one common line: the `Colinear` branch pushes the popped vertex back to the
front and pops from the back, so the queue never shrinks. -/
lemma initLoop_diverges {A B C : ℚ} (hAB : ¬(A = 0 ∧ B = 0)) :
    ∀ (fuel : Nat) (v1 v2 v3 : Vertex) (vs : List Vertex),
      (∀ v ∈ v1 :: v2 :: v3 :: vs, A * v.x + B * v.y = C) →
      initLoop fuel v1 v2 v3 vs = .error .fuel := by
  intro fuel
  induction fuel with
  | zero => intro v1 v2 v3 vs _; rfl
  | succ n ih =>
    intro v1 v2 v3 vs hline
    have ho : orient_2d v1 v2 v3 = .colinear :=
      orient_2d_of_line hAB v1 v2 v3 (hline v1 (by simp)) (hline v2 (by simp))
        (hline v3 (by simp))
    have hne : (v3 :: vs) ≠ [] := by simp
    unfold initLoop
    rw [ho]
    rw [show popBack (v3 :: vs) =
        some ((v3 :: vs).getLast hne, (v3 :: vs).dropLast) by
      unfold popBack
      rw [List.getLast?_eq_getLast_of_ne_nil hne]]
    apply ih
    intro v hv
    rcases List.mem_cons.mp hv with rfl | hv
    · exact hline v (by simp)
    rcases List.mem_cons.mp hv with rfl | hv
    · exact hline v (by simp)
    rcases List.mem_cons.mp hv with rfl | hv
    · exact hline _ (List.mem_cons_of_mem _ (List.mem_cons_of_mem _
        (List.getLast_mem hne)))
    · exact hline _ (List.mem_cons_of_mem _ (List.mem_cons_of_mem _
        ((List.dropLast_sublist (v3 :: vs)).mem hv)))

/-- C1 (code bug): at the spec's failing input `[0,0, 1,1, 2,2]` the
initialization loop never exhausts the queue — the `Colinear` branch keeps
the queue length constant — so `triangulate()` runs forever (it exhausts any
fuel bound) instead of failing with a `Degenerate` error; indeed the source
has no `Degenerate` panic at all. -/
theorem claim_C1 :
    Triangulator.from_coordinates [0, 0, 1, 1, 2, 2] =
      .ok (Triangulator.from_vertices
        [Vertex.new 0 0, Vertex.new 1 1, Vertex.new 2 2]) ∧
    ∀ fuel : Nat,
      (Triangulator.from_vertices
        [Vertex.new 0 0, Vertex.new 1 1, Vertex.new 2 2]).triangulate fuel =
      .error (.fuel, Triangulator.from_vertices []) := by
  constructor
  · rfl
  · intro fuel
    have h := initLoop_diverges (A := 1) (B := -1) (C := 0) (by norm_num) fuel
      (Vertex.new 0 0) (Vertex.new 1 1) (Vertex.new 2 2) [] (by
        intro v hv
        fin_cases hv <;> norm_num [Vertex.new])
    unfold Triangulator.triangulate Triangulator.init
    simp only [Triangulator.from_vertices, popBack]
    norm_num [h]

/-! ### C6: export emits min-first rotations -/

/-- Indexing into the flattening of constant-length-`n` blocks. -/
lemma flatten_blocks_getD {α β : Type} (f : α → List β) (n : Nat)
    (hf : ∀ a, (f a).length = n) :
    ∀ (l : List α) (k j : Nat), k < l.length → j < n →
      ∀ (d : α) (dflt : β),
      ((l.map f).flatten).getD (n * k + j) dflt = (f (l.getD k d)).getD j dflt := by
  intro l
  induction l with
  | nil => intro k j hk _ _ _; simp at hk
  | cons a l ih =>
    intro k j hk hj d dflt
    cases k with
    | zero =>
      simp only [List.map_cons, List.flatten_cons, Nat.mul_zero, Nat.zero_add]
      rw [List.getD_append _ _ _ _ (by rw [hf]; exact hj)]
      rfl
    | succ k' =>
      have hlen : (f a).length = n := hf a
      have harith : n * (k' + 1) + j = (f a).length + (n * k' + j) := by
        rw [hlen]; ring
      simp only [List.map_cons, List.flatten_cons, harith]
      rw [List.getD_append_right _ _ _ _ (by omega)]
      rw [show (f a).length + (n * k' + j) - (f a).length = n * k' + j by omega]
      exact ih k' j (by simpa using Nat.lt_of_succ_lt_succ hk) hj d dflt

/-- Every canonical triple has three entries. -/
lemma canonTriple_length (l : List Vertex) (t : Triangle) :
    (canonTriple l t).length = 3 := by
  unfold canonTriple
  split <;> try rfl
  split <;> rfl

/-- The canonical triple is one of the three rotations of the index cycle and
its head is the minimum index. -/
lemma canonTriple_cases (l : List Vertex) (t : Triangle) :
    (canonTriple l t = [vidx l t.v1, vidx l t.v2, vidx l t.v3] ∨
     canonTriple l t = [vidx l t.v2, vidx l t.v3, vidx l t.v1] ∨
     canonTriple l t = [vidx l t.v3, vidx l t.v1, vidx l t.v2]) ∧
    (canonTriple l t).getD 0 0 =
      min (vidx l t.v1) (min (vidx l t.v2) (vidx l t.v3)) := by
  unfold canonTriple
  split
  · next h1 => exact ⟨Or.inl rfl, h1.symm⟩
  · next h1 =>
    split
    · next h2 => exact ⟨Or.inr (Or.inl rfl), h2.symm⟩
    · next h2 =>
      have h3 : min (vidx l t.v1) (min (vidx l t.v2) (vidx l t.v3)) =
          vidx l t.v3 := by
        rcases min_choice (vidx l t.v1) (min (vidx l t.v2) (vidx l t.v3)) with
          h | h
        · exact absurd h h1
        · rcases min_choice (vidx l t.v2) (vidx l t.v3) with h' | h'
          · exact absurd (h.trans h') h2
          · exact h.trans h'
      exact ⟨Or.inr (Or.inr rfl), h3.symm⟩

/-- The default triangle for out-of-range `getD` reads. -/
def dummyTri : Triangle := ⟨Vertex.new_ghost, Vertex.new_ghost, Vertex.new_ghost⟩

/-- C6: every index triple emitted by `export` is a cyclic rotation (never a
reflection) of the solid triangle's index cycle `(v1, v2, v3)`, with the
smallest of the three indices first. -/
theorem claim_C6 (s : Triangulator) (k : Nat) (hk : k < (solidList s).length) :
    ([(exportMesh s).triangles.getD (3 * k) 0,
      (exportMesh s).triangles.getD (3 * k + 1) 0,
      (exportMesh s).triangles.getD (3 * k + 2) 0] =
        [vidx (sortedVerts s) ((solidList s).getD k dummyTri).v1,
         vidx (sortedVerts s) ((solidList s).getD k dummyTri).v2,
         vidx (sortedVerts s) ((solidList s).getD k dummyTri).v3] ∨
     [(exportMesh s).triangles.getD (3 * k) 0,
      (exportMesh s).triangles.getD (3 * k + 1) 0,
      (exportMesh s).triangles.getD (3 * k + 2) 0] =
        [vidx (sortedVerts s) ((solidList s).getD k dummyTri).v2,
         vidx (sortedVerts s) ((solidList s).getD k dummyTri).v3,
         vidx (sortedVerts s) ((solidList s).getD k dummyTri).v1] ∨
     [(exportMesh s).triangles.getD (3 * k) 0,
      (exportMesh s).triangles.getD (3 * k + 1) 0,
      (exportMesh s).triangles.getD (3 * k + 2) 0] =
        [vidx (sortedVerts s) ((solidList s).getD k dummyTri).v3,
         vidx (sortedVerts s) ((solidList s).getD k dummyTri).v1,
         vidx (sortedVerts s) ((solidList s).getD k dummyTri).v2]) ∧
    (exportMesh s).triangles.getD (3 * k) 0 ≤
      (exportMesh s).triangles.getD (3 * k + 1) 0 ∧
    (exportMesh s).triangles.getD (3 * k) 0 ≤
      (exportMesh s).triangles.getD (3 * k + 2) 0 := by
  have hout : (exportMesh s).triangles =
      ((solidList s).map (canonTriple (sortedVerts s))).flatten := rfl
  have he : ∀ j, j < 3 →
      (exportMesh s).triangles.getD (3 * k + j) 0 =
      (canonTriple (sortedVerts s) ((solidList s).getD k dummyTri)).getD j 0 := by
    intro j hj
    rw [hout]
    exact flatten_blocks_getD _ 3 (canonTriple_length _) _ k j hk hj dummyTri 0
  have h0 := he 0 (by omega)
  have h1 := he 1 (by omega)
  have h2 := he 2 (by omega)
  rw [show 3 * k + 0 = 3 * k by omega] at h0
  obtain ⟨hrot, hmin⟩ := canonTriple_cases (sortedVerts s)
    ((solidList s).getD k dummyTri)
  rcases hrot with hc | hc | hc <;>
    rw [hc] at h0 h1 h2 hmin <;>
    simp only [List.getD_cons_zero, List.getD_cons_succ] at h0 h1 h2 hmin <;>
    rw [h0, h1, h2] <;>
    refine ⟨by tauto, ?_, ?_⟩ <;> omega

/-- Witness for C6 at the triangulated three-point mesh. -/
theorem claim_C6_witness :
    0 < (solidList (okStateD ((Triangulator.from_vertices
      [Vertex.new 0 0, Vertex.new 2 0, Vertex.new 1 2]).triangulate 100))).length ∧
    (exportMesh (okStateD ((Triangulator.from_vertices
      [Vertex.new 0 0, Vertex.new 2 0, Vertex.new 1 2]).triangulate 100))).triangles.getD 0 0 ≤
    (exportMesh (okStateD ((Triangulator.from_vertices
      [Vertex.new 0 0, Vertex.new 2 0, Vertex.new 1 2]).triangulate 100))).triangles.getD 1 0 :=
  ⟨by with_unfolding_all decide, by
    have h := claim_C6 (okStateD ((Triangulator.from_vertices
      [Vertex.new 0 0, Vertex.new 2 0, Vertex.new 1 2]).triangulate 100)) 0
      (by with_unfolding_all decide)
    simpa using h.2.1⟩

/-! ### C2: exported coordinates are sorted strictly lexicographically -/

instance : IsTotal Vertex vle :=
  ⟨fun a b => by
    unfold vle
    rcases lt_trichotomy a.x b.x with h | h | h
    · exact Or.inl (Or.inl h)
    · rcases le_total a.y b.y with h' | h'
      · exact Or.inl (Or.inr ⟨h, h'⟩)
      · exact Or.inr (Or.inr ⟨h.symm, h'⟩)
    · exact Or.inr (Or.inl h)⟩

instance : IsTrans Vertex vle :=
  ⟨fun a b c hab hbc => by
    unfold vle at *
    rcases hab with h | ⟨hx, hy⟩ <;> rcases hbc with h' | ⟨hx', hy'⟩
    · exact Or.inl (h.trans h')
    · exact Or.inl (hx' ▸ h)
    · exact Or.inl (hx ▸ h')
    · exact Or.inr ⟨hx.trans hx', hy.trans hy'⟩⟩

/-- `vertsInsert` keeps the accumulator duplicate-free. -/
lemma vertsInsert_nodup (l : List Vertex) (v : Vertex) (h : l.Nodup) :
    (vertsInsert l v).Nodup := by
  unfold vertsInsert
  split
  · exact h
  · next hmem =>
    simpa [List.nodup_append] using ⟨h, hmem⟩

/-- `vertsInsert` adds at most the inserted vertex. -/
lemma vertsInsert_mem {l : List Vertex} {v w : Vertex}
    (h : w ∈ vertsInsert l v) : w ∈ l ∨ w = v := by
  unfold vertsInsert at h
  split at h
  · exact Or.inl h
  · simpa using h

/-- The collected vertex list of a triangle list is duplicate-free. -/
lemma collectVerts_nodup (ts : List Triangle) : (collectVerts ts).Nodup := by
  suffices h : ∀ acc : List Vertex, acc.Nodup →
      (ts.foldl (fun acc t =>
        vertsInsert (vertsInsert (vertsInsert acc t.v1) t.v2) t.v3) acc).Nodup by
    exact h [] List.nodup_nil
  induction ts with
  | nil => intro acc h; exact h
  | cons t ts ih =>
    intro acc h
    exact ih _ (vertsInsert_nodup _ _ (vertsInsert_nodup _ _
      (vertsInsert_nodup _ _ h)))

/-- Every collected vertex comes from one of the listed triangles. -/
lemma collectVerts_mem {ts : List Triangle} {v : Vertex}
    (h : v ∈ collectVerts ts) :
    ∃ t ∈ ts, v = t.v1 ∨ v = t.v2 ∨ v = t.v3 := by
  suffices hgen : ∀ acc : List Vertex, v ∈ ts.foldl (fun acc t =>
      vertsInsert (vertsInsert (vertsInsert acc t.v1) t.v2) t.v3) acc →
      v ∈ acc ∨ ∃ t ∈ ts, v = t.v1 ∨ v = t.v2 ∨ v = t.v3 by
    rcases hgen [] h with hmem | hmem
    · simp at hmem
    · exact hmem
  clear h
  induction ts with
  | nil => intro acc h'; exact Or.inl h'
  | cons t ts ih =>
    intro acc h'
    rw [List.foldl_cons] at h'
    rcases ih _ h' with hmem | ⟨u, hu, hv⟩
    · rcases vertsInsert_mem hmem with hmem | rfl
      · rcases vertsInsert_mem hmem with hmem | rfl
        · rcases vertsInsert_mem hmem with hmem | rfl
          · exact Or.inl hmem
          · exact Or.inr ⟨t, by simp, Or.inl rfl⟩
        · exact Or.inr ⟨t, by simp, Or.inr (Or.inl rfl)⟩
      · exact Or.inr ⟨t, by simp, Or.inr (Or.inr rfl)⟩
    · exact Or.inr ⟨u, List.mem_cons_of_mem _ hu, hv⟩

/-- Vertices referenced by solid triangles are never ghosts. -/
lemma solid_verts_nonghost (s : Triangulator) :
    ∀ v ∈ collectVerts (solidList s), v.is_ghost = false := by
  intro v hv
  obtain ⟨t, ht, hvt⟩ := collectVerts_mem hv
  have hng : t.is_ghost = false := by
    unfold solidList at ht
    simpa using List.of_mem_filter ht
  unfold Triangle.is_ghost at hng
  rcases hvt with rfl | rfl | rfl <;> simp_all

/-- Strictness from the weak order, distinctness and non-ghostliness. -/
lemma vlt_of_vle_ne {a b : Vertex} (hle : vle a b) (hne : a ≠ b)
    (ha : a.is_ghost = false) (hb : b.is_ghost = false) : vlt a b := by
  rcases hle with h | ⟨hx, hy⟩
  · exact Or.inl h
  · rcases lt_or_eq_of_le hy with h' | h'
    · exact Or.inr ⟨hx, h'⟩
    · exact absurd (by cases a; cases b; simp_all) hne

/-- The sorted vertex list of `export` is strictly increasing. -/
lemma sortedVerts_pairwise (s : Triangulator) :
    List.Pairwise vlt (sortedVerts s) := by
  have hsorted : List.Pairwise vle (sortedVerts s) :=
    List.sorted_insertionSort vle (collectVerts (solidList s))
  have hperm : List.Perm (sortedVerts s) (collectVerts (solidList s)) :=
    List.perm_insertionSort vle (collectVerts (solidList s))
  have hnodup : (sortedVerts s).Nodup :=
    hperm.nodup_iff.mpr (collectVerts_nodup _)
  have hcomb := hsorted.and hnodup
  refine hcomb.imp_of_mem ?_
  intro a b ha hb hab
  exact vlt_of_vle_ne hab.1 hab.2
    (solid_verts_nonghost s a (hperm.mem_iff.mp ha))
    (solid_verts_nonghost s b (hperm.mem_iff.mp hb))

/-- Flattening two-entry blocks doubles the length. -/
lemma interleave_length (l : List Vertex) :
    ((l.map fun v => [v.x, v.y]).flatten).length = 2 * l.length := by
  induction l with
  | nil => rfl
  | cons v l ih =>
    simp only [List.map_cons, List.flatten_cons, List.length_append, ih,
      List.length_cons]
    simp
    omega

/-- The exported coordinate list interleaves the sorted vertices. -/
lemma coords_length (s : Triangulator) :
    (exportMesh s).coordinates.length = 2 * (sortedVerts s).length :=
  interleave_length (sortedVerts s)

/-- C2: `export` lists the referenced non-ghost vertices in strictly
increasing lexicographic order on `(x, y)`: of two consecutive exported
points, either the first `x` is smaller, or the `x`s are equal and the first
`y` is smaller. -/
theorem claim_C2 (s : Triangulator) (i : Nat)
    (h : 2 * i + 3 < (exportMesh s).coordinates.length) :
    (exportMesh s).coordinates.getD (2 * i) 0 <
      (exportMesh s).coordinates.getD (2 * i + 2) 0 ∨
    ((exportMesh s).coordinates.getD (2 * i) 0 =
      (exportMesh s).coordinates.getD (2 * i + 2) 0 ∧
     (exportMesh s).coordinates.getD (2 * i + 1) 0 <
      (exportMesh s).coordinates.getD (2 * i + 3) 0) := by
  have hlen := coords_length s
  have hi1 : i + 1 < (sortedVerts s).length := by omega
  have hi : i < (sortedVerts s).length := by omega
  have hcoords : (exportMesh s).coordinates =
      ((sortedVerts s).map fun v => [v.x, v.y]).flatten := rfl
  have hblock := flatten_blocks_getD (fun v : Vertex => [v.x, v.y]) 2
    (fun _ => rfl) (sortedVerts s)
  have e0 : (exportMesh s).coordinates.getD (2 * i) 0 =
      ((sortedVerts s).getD i Vertex.new_ghost).x := by
    rw [hcoords, show 2 * i = 2 * i + 0 by omega]
    exact hblock i 0 hi (by omega) Vertex.new_ghost 0
  have e1 : (exportMesh s).coordinates.getD (2 * i + 1) 0 =
      ((sortedVerts s).getD i Vertex.new_ghost).y := by
    rw [hcoords]
    exact hblock i 1 hi (by omega) Vertex.new_ghost 0
  have e2 : (exportMesh s).coordinates.getD (2 * i + 2) 0 =
      ((sortedVerts s).getD (i + 1) Vertex.new_ghost).x := by
    rw [hcoords, show 2 * i + 2 = 2 * (i + 1) + 0 by omega]
    exact hblock (i + 1) 0 hi1 (by omega) Vertex.new_ghost 0
  have e3 : (exportMesh s).coordinates.getD (2 * i + 3) 0 =
      ((sortedVerts s).getD (i + 1) Vertex.new_ghost).y := by
    rw [hcoords, show 2 * i + 3 = 2 * (i + 1) + 1 by omega]
    exact hblock (i + 1) 1 hi1 (by omega) Vertex.new_ghost 0
  have hvlt : vlt ((sortedVerts s).getD i Vertex.new_ghost)
      ((sortedVerts s).getD (i + 1) Vertex.new_ghost) := by
    have hpw := List.pairwise_iff_get.mp (sortedVerts_pairwise s)
    have := hpw ⟨i, hi⟩ ⟨i + 1, hi1⟩ (by simp)
    rw [List.getD_eq_getElem _ _ hi, List.getD_eq_getElem _ _ hi1]
    simpa using this
  rw [e0, e1, e2, e3]
  exact hvlt

/-- Witness for C2 at the triangulated three-point mesh (three exported
vertices). -/
theorem claim_C2_witness :
    2 * 0 + 3 < (exportMesh (okStateD ((Triangulator.from_vertices
      [Vertex.new 0 0, Vertex.new 2 0, Vertex.new 1 2]).triangulate 100))).coordinates.length ∧
    ((exportMesh (okStateD ((Triangulator.from_vertices
      [Vertex.new 0 0, Vertex.new 2 0, Vertex.new 1 2]).triangulate 100))).coordinates.getD (2 * 0) 0 <
      (exportMesh (okStateD ((Triangulator.from_vertices
      [Vertex.new 0 0, Vertex.new 2 0, Vertex.new 1 2]).triangulate 100))).coordinates.getD (2 * 0 + 2) 0 ∨
     ((exportMesh (okStateD ((Triangulator.from_vertices
      [Vertex.new 0 0, Vertex.new 2 0, Vertex.new 1 2]).triangulate 100))).coordinates.getD (2 * 0) 0 =
      (exportMesh (okStateD ((Triangulator.from_vertices
      [Vertex.new 0 0, Vertex.new 2 0, Vertex.new 1 2]).triangulate 100))).coordinates.getD (2 * 0 + 2) 0 ∧
      (exportMesh (okStateD ((Triangulator.from_vertices
      [Vertex.new 0 0, Vertex.new 2 0, Vertex.new 1 2]).triangulate 100))).coordinates.getD (2 * 0 + 1) 0 <
      (exportMesh (okStateD ((Triangulator.from_vertices
      [Vertex.new 0 0, Vertex.new 2 0, Vertex.new 1 2]).triangulate 100))).coordinates.getD (2 * 0 + 3) 0)) :=
  ⟨by with_unfolding_all decide,
   claim_C2 (okStateD ((Triangulator.from_vertices
     [Vertex.new 0 0, Vertex.new 2 0, Vertex.new 1 2]).triangulate 100)) 0
     (by with_unfolding_all decide)⟩

/-! ### C4: `insert_vertex` -/

/-- `remove_triangle` on a state with an empty conflict map leaves the
pending-vertex list and the conflict map untouched. -/
lemma remove_triangle_empty {s : Triangulator} {t : Triangle} {s₁ : Triangulator}
    (hc : s.conflict_map = []) (h : remove_triangle s t = .ok s₁) :
    s₁.vertices = s.vertices ∧ s₁.conflict_map = [] := by
  unfold remove_triangle at h
  dsimp only at h
  have hfind : cmapFind (remove_inner_adjacency s t).conflict_map t = none := by
    show cmapFind s.conflict_map t = none
    rw [hc]
    rfl
  split at h
  · injection h with h
    subst h
    exact ⟨rfl, hc⟩
  · rw [hfind] at h
    simp at h

/-- `remove_triangle` only ever panics with `removeUnknown`. -/
lemma remove_triangle_error {s : Triangulator} {t : Triangle}
    {es : Err × Triangulator} (h : remove_triangle s t = .error es) :
    es.1 = .removeUnknown := by
  unfold remove_triangle at h
  dsimp only at h
  split at h
  · simp at h
  · split at h
    · simp at h
    · injection h with h
      subst h
      rfl

/-- `include_triangle` on a state with no pending vertices cannot create a
conflict. -/
lemma include_triangle_empty {s : Triangulator} {t : Triangle}
    (hv : s.vertices = []) :
    (include_triangle s t).vertices = [] ∧
    (include_triangle s t).conflict_map = s.conflict_map := by
  unfold include_triangle
  dsimp only
  have hfi : (include_inner_adjacency s t).vertices.findIdx?
      (fun v => decide (t.encircles v = Continence.inside)) = none := by
    show s.vertices.findIdx? _ = none
    rw [hv]
    rfl
  rw [hfi]
  exact ⟨hv, rfl⟩

/-- The cavity loop preserves emptiness of the pending-vertex list and the
conflict map. -/
lemma cavityLoop_empty (p : Vertex) :
    ∀ (fuel : Nat) (s : Triangulator) (pend : List (Vertex × Vertex))
      (s' : Triangulator),
      s.vertices = [] → s.conflict_map = [] →
      cavityLoop p fuel s pend = .ok s' →
      s'.vertices = [] ∧ s'.conflict_map = [] := by
  intro fuel
  induction fuel with
  | zero =>
    intro s pend s' hv hc h
    unfold cavityLoop at h
    rcases hpop : popBack pend with _ | ⟨⟨vb, ve⟩, pend'⟩ <;>
      rw [hpop] at h <;> dsimp only at h
    · injection h with h
      subst h
      exact ⟨hv, hc⟩
    · simp at h
  | succ n ih =>
    intro s pend s' hv hc h
    unfold cavityLoop at h
    rcases hpop : popBack pend with _ | ⟨⟨vb, ve⟩, pend'⟩ <;>
      rw [hpop] at h <;> dsimp only at h
    · injection h with h
      subst h
      exact ⟨hv, hc⟩
    · rcases hadj : adjFind s.adjacency (ve, vb) with _ | outer <;>
        rw [hadj] at h <;> dsimp only at h
      · simp at h
      · split at h
        · rcases hrem : remove_triangle s outer with es | s₁ <;>
            rw [hrem] at h <;> dsimp only at h
          · simp at h
          · obtain ⟨hv₁, hc₁⟩ := remove_triangle_empty hc hrem
            exact ih _ _ s' (hv₁.trans hv) hc₁ h
        · obtain ⟨hv₁, hc₁⟩ := include_triangle_empty (t :=
            if vb.is_ghost then Triangle.mk ve p vb
            else if ve.is_ghost then Triangle.mk p vb ve
            else Triangle.mk vb ve p) hv
          exact ih _ _ s' hv₁ (hc₁.trans hc) h

/-- The cavity loop never raises `missingConflict`. -/
lemma cavityLoop_not_missing (p : Vertex) :
    ∀ (fuel : Nat) (s : Triangulator) (pend : List (Vertex × Vertex)),
      errKind (cavityLoop p fuel s pend) ≠ some Err.missingConflict := by
  intro fuel
  induction fuel with
  | zero =>
    intro s pend
    unfold cavityLoop
    rcases hpop : popBack pend with _ | ⟨⟨vb, ve⟩, pend'⟩ <;>
      dsimp only <;> simp [errKind]
  | succ n ih =>
    intro s pend
    unfold cavityLoop
    rcases hpop : popBack pend with _ | ⟨⟨vb, ve⟩, pend'⟩ <;> dsimp only
    · simp [errKind]
    · rcases hadj : adjFind s.adjacency (ve, vb) with _ | outer <;> dsimp only
      · simp [errKind]
      · split
        · rcases hrem : remove_triangle s outer with es | s₁ <;> dsimp only
          · obtain ⟨e, sx⟩ := es
            have hk := remove_triangle_error hrem
            simp only [errKind]
            intro hcontra
            injection hcontra with hcontra
            rw [hcontra] at hk
            exact Err.noConfusion hk
          · exact ih _ _
        · exact ih _ _

/-- `handle_conflict` on a singleton conflict map over an empty vertex pool
drains the map completely. -/
lemma handle_conflict_single {fuel : Nat} {s : Triangulator} {t : Triangle}
    {p : Vertex} {s' : Triangulator}
    (hv : s.vertices = []) (hc : s.conflict_map = [(t, p)])
    (h : handle_conflict fuel s = .ok s') :
    s'.vertices = [] ∧ s'.conflict_map = [] := by
  unfold handle_conflict at h
  rw [hc] at h
  dsimp only at h
  refine cavityLoop_empty p fuel _ _ s' ?_ ?_ h
  · exact hv
  · rfl

/-- `HashMap::insert` never leaves the conflict map empty. -/
lemma cmapInsert_ne_nil (m : List (Triangle × Vertex)) (t : Triangle)
    (p : Vertex) : cmapInsert m t p ≠ [] := by
  unfold cmapInsert
  split
  · next h =>
    intro hmap
    rw [List.map_eq_nil_iff] at hmap
    subst hmap
    simp at h
  · simp

/-- C4 (amended): for every mesh state, `insert_vertex` fails with
`MissingConflict` exactly when no mesh triangle strictly contains the vertex,
and when a containing triangle is found it is moved out of `triangles`, the
pair is placed into `conflict_map` and `handle_conflict` is called; when the
pending-vertex list and the conflict map start empty (the normal state after
`triangulate()`), a successful `insert_vertex` returns with the conflict map
drained. -/
theorem claim_C4_amended (fuel : Nat) (s : Triangulator) (p : Vertex) :
    (errKind (s.insert_vertex fuel p) = some Err.missingConflict ↔
      ∀ t ∈ s.triangles, t.encircles p ≠ Continence.inside) ∧
    (∀ t, s.triangles.find?
        (fun u => decide (u.encircles p = Continence.inside)) = some t →
      s.insert_vertex fuel p = handle_conflict fuel
        { s with triangles := trisRemove s.triangles t,
                 conflict_map := cmapInsert s.conflict_map t p }) ∧
    (s.vertices = [] → s.conflict_map = [] →
      ∀ s', s.insert_vertex fuel p = .ok s' → s'.conflict_map = []) := by
  rcases hfind : s.triangles.find?
      (fun u => decide (u.encircles p = Continence.inside)) with _ | t
  · have hins : s.insert_vertex fuel p = .error (.missingConflict, s) := by
      unfold Triangulator.insert_vertex
      rw [hfind]
    refine ⟨?_, ?_, ?_⟩
    · rw [hins]
      simp only [errKind, true_iff]
      intro t ht
      have := List.find?_eq_none.mp hfind t ht
      simpa using this
    · intro t ht
      rw [hfind] at ht
      exact absurd ht (by simp)
    · intro _ _ s' h'
      rw [hins] at h'
      simp at h'
  · have hins : s.insert_vertex fuel p = handle_conflict fuel
        { s with triangles := trisRemove s.triangles t,
                 conflict_map := cmapInsert s.conflict_map t p } := by
      unfold Triangulator.insert_vertex
      rw [hfind]
    refine ⟨?_, ?_, ?_⟩
    · rw [hins]
      constructor
      · intro hkind
        exfalso
        unfold handle_conflict at hkind
        dsimp only at hkind
        rcases hcm : cmapInsert s.conflict_map t p with _ | ⟨⟨u, q⟩, rest⟩
        · exact cmapInsert_ne_nil s.conflict_map t p hcm
        · rw [hcm] at hkind
          dsimp only at hkind
          exact cavityLoop_not_missing q fuel _ _ hkind
      · intro hall
        exfalso
        have hmem := List.mem_of_find?_eq_some hfind
        have hpred := List.find?_some hfind
        exact hall t hmem (by simpa using hpred)
    · intro u hu
      rw [hfind] at hu
      injection hu with hu
      subst hu
      exact hins
    · intro hv hc s' h'
      rw [hins] at h'
      have hcm : ({ s with triangles := trisRemove s.triangles t,
                           conflict_map := cmapInsert s.conflict_map t p } :
            Triangulator).conflict_map = [(t, p)] := by
        show cmapInsert s.conflict_map t p = [(t, p)]
        rw [hc]
        rfl
      exact (handle_conflict_single
        (s := { s with triangles := trisRemove s.triangles t,
                       conflict_map := cmapInsert s.conflict_map t p })
        (t := t) (p := p) hv hcm h').2

/-- Witness for C4 (amended) at the triangulated three-point mesh: the
`MissingConflict` iff instantiated there, and the drained-map conclusion with
its two state hypotheses discharged concretely. -/
theorem claim_C4_amended_witness :
    ((errKind ((okStateD ((Triangulator.from_vertices
        [Vertex.new 0 0, Vertex.new 2 0, Vertex.new 1 2]).triangulate 100)).insert_vertex
          100 (Vertex.new 1 1)) = some Err.missingConflict) ↔
      ∀ t ∈ (okStateD ((Triangulator.from_vertices
        [Vertex.new 0 0, Vertex.new 2 0, Vertex.new 1 2]).triangulate 100)).triangles,
        t.encircles (Vertex.new 1 1) ≠ Continence.inside) ∧
    (okStateD ((Triangulator.from_vertices
      [Vertex.new 0 0, Vertex.new 2 0, Vertex.new 1 2]).triangulate 100)).vertices = [] ∧
    (okStateD ((Triangulator.from_vertices
      [Vertex.new 0 0, Vertex.new 2 0, Vertex.new 1 2]).triangulate 100)).conflict_map = [] ∧
    ∀ s', (okStateD ((Triangulator.from_vertices
      [Vertex.new 0 0, Vertex.new 2 0, Vertex.new 1 2]).triangulate 100)).insert_vertex 100
        (Vertex.new 1 1) = .ok s' → s'.conflict_map = [] :=
  ⟨(claim_C4_amended 100 _ (Vertex.new 1 1)).1,
   by with_unfolding_all decide, by with_unfolding_all decide,
   (claim_C4_amended 100 _ (Vertex.new 1 1)).2.2 (by with_unfolding_all decide)
     (by with_unfolding_all decide)⟩

/-- The triangulated three-point mesh with one artificially pending vertex
`(1, 1)` re-attached. -/
def pendState : Triangulator :=
  { okStateD ((Triangulator.from_vertices
      [Vertex.new 0 0, Vertex.new 2 0, Vertex.new 1 2]).triangulate 100) with
    vertices := [Vertex.new 1 1] }

/-- C4 counterexample: at a mesh state holding a pending vertex,
`insert_vertex` succeeds yet returns with a non-empty conflict map — the
single `handle_conflict` call does not drain the queue that the cavity dig
refills, contradicting the claim's unrestricted "conflict_map is empty when
insert_vertex returns successfully". -/
theorem claim_C4_counterexample :
    errKind (pendState.insert_vertex 100 (Vertex.new 1 (1 / 2))) = none ∧
    (okStateD (pendState.insert_vertex 100
      (Vertex.new 1 (1 / 2)))).conflict_map ≠ [] := by
  with_unfolding_all decide

/-! ### C3: `delete_vertex` and the merge step -/

/-- The rotation-invariant triangle equality is reflexive. -/
lemma teq_refl (t : Triangle) : Triangle.teq t t = true := by
  unfold Triangle.teq
  simp

/-- `trisInsert` preserves membership. -/
lemma trisInsert_mem_mono {l : List Triangle} {u : Triangle} (t : Triangle)
    (h : u ∈ l) : u ∈ trisInsert l t := by
  unfold trisInsert
  split
  · exact h
  · exact List.mem_append_left _ h

/-- `trisInsert` adds at most the inserted triangle. -/
lemma trisInsert_mem_inv {l : List Triangle} {u t : Triangle}
    (h : u ∈ trisInsert l t) : u ∈ l ∨ u = t := by
  unfold trisInsert at h
  split at h
  · exact Or.inl h
  · simpa using h

/-- `trisContains` is preserved by further insertions. -/
lemma trisContains_insert_mono {l : List Triangle} {t : Triangle}
    (u : Triangle) (h : trisContains l t = true) :
    trisContains (trisInsert l u) t = true := by
  unfold trisInsert
  split
  · exact h
  · unfold trisContains at h ⊢
    simp only [List.any_append, Bool.or_eq_true]
    exact Or.inl h

/-- After `trisInsert` the inserted triangle is contained. -/
lemma trisContains_insert_self (l : List Triangle) (t : Triangle) :
    trisContains (trisInsert l t) t = true := by
  unfold trisInsert
  split
  · assumption
  · unfold trisContains
    simp [teq_refl]

/-- Folding `trisInsert` preserves membership of the accumulator. -/
lemma foldl_trisInsert_mem_mono :
    ∀ (ts acc : List Triangle) (u : Triangle),
      u ∈ acc → u ∈ ts.foldl trisInsert acc := by
  intro ts
  induction ts with
  | nil => intro acc u h; exact h
  | cons t ts ih =>
    intro acc u h
    rw [List.foldl_cons]
    exact ih _ u (trisInsert_mem_mono t h)

/-- Folding `trisInsert` adds only listed triangles. -/
lemma foldl_trisInsert_mem_inv :
    ∀ (ts acc : List Triangle) (u : Triangle),
      u ∈ ts.foldl trisInsert acc → u ∈ acc ∨ u ∈ ts := by
  intro ts
  induction ts with
  | nil => intro acc u h; exact Or.inl h
  | cons t ts ih =>
    intro acc u h
    rw [List.foldl_cons] at h
    rcases ih _ u h with hmem | hmem
    · rcases trisInsert_mem_inv hmem with hmem | rfl
      · exact Or.inl hmem
      · exact Or.inr (by simp)
    · exact Or.inr (List.mem_cons_of_mem _ hmem)

/-- Folding `trisInsert` preserves containment. -/
lemma foldl_trisContains_mono :
    ∀ (ts acc : List Triangle) (t : Triangle),
      trisContains acc t = true →
      trisContains (ts.foldl trisInsert acc) t = true := by
  intro ts
  induction ts with
  | nil => intro acc t h; exact h
  | cons u ts ih =>
    intro acc t h
    rw [List.foldl_cons]
    exact ih _ t (trisContains_insert_mono u h)

/-- Every folded-in triangle ends up contained (up to rotation). -/
lemma foldl_trisContains_self :
    ∀ (ts acc : List Triangle) (t : Triangle),
      t ∈ ts → trisContains (ts.foldl trisInsert acc) t = true := by
  intro ts
  induction ts with
  | nil => intro acc t h; simp at h
  | cons u ts ih =>
    intro acc t h
    rw [List.foldl_cons]
    rcases List.mem_cons.mp h with rfl | h
    · exact foldl_trisContains_mono ts _ t (trisContains_insert_self acc t)
    · exact ih _ t h

/-- C3 (amended): the merge step of `delete_vertex` removes nothing from the
triangle set — every ghost triangle of the outer mesh remains — and adds
exactly the solid triangles of the inner triangulation (each inner solid is
present up to rotation, and everything added is an inner solid).  The
adjacency entries of outer ghost triangles are, however, not always
untouched: the merge also copies the inner triangulation's ghost-keyed
adjacency entries, which overwrite colliding outer entries (see the
counterexample). -/
theorem claim_C3_amended (s other : Triangulator) :
    (∀ t ∈ s.triangles, t ∈ (merge_triangles s other).triangles) ∧
    (∀ t ∈ (merge_triangles s other).triangles,
      t ∈ s.triangles ∨ (t ∈ other.triangles ∧ t.is_ghost = false)) ∧
    (∀ t ∈ other.triangles, t.is_ghost = false →
      trisContains (merge_triangles s other).triangles t = true) := by
  refine ⟨?_, ?_, ?_⟩
  · intro t ht
    exact foldl_trisInsert_mem_mono _ _ t ht
  · intro t ht
    rcases foldl_trisInsert_mem_inv _ _ t ht with hmem | hmem
    · exact Or.inl hmem
    · refine Or.inr ?_
      have := List.mem_filter.mp hmem
      constructor
      · exact this.1
      · simpa using this.2
  · intro t ht hng
    refine foldl_trisContains_self _ _ t ?_
    rw [List.mem_filter]
    exact ⟨ht, by simpa using hng⟩

/-- Witness for C3 (amended) on small concrete states. -/
theorem claim_C3_amended_witness :
    Triangle.mk (Vertex.new 0 0) (Vertex.new 1 0) Vertex.new_ghost ∈
      (merge_triangles
        (Triangulator.mk [] [Triangle.mk (Vertex.new 0 0) (Vertex.new 1 0) Vertex.new_ghost] [] [])
        (Triangulator.mk [] [Triangle.mk (Vertex.new 0 0) (Vertex.new 1 0) (Vertex.new 0 1)] [] [])).triangles ∧
    trisContains
      (merge_triangles
        (Triangulator.mk [] [Triangle.mk (Vertex.new 0 0) (Vertex.new 1 0) Vertex.new_ghost] [] [])
        (Triangulator.mk [] [Triangle.mk (Vertex.new 0 0) (Vertex.new 1 0) (Vertex.new 0 1)] [] [])).triangles
      (Triangle.mk (Vertex.new 0 0) (Vertex.new 1 0) (Vertex.new 0 1)) = true :=
  ⟨(claim_C3_amended _ _).1 _ (by decide),
   (claim_C3_amended _ _).2.2 _ (by decide) (by decide)⟩

/-- The triangulated five-point mesh `(0,0), (10,0), (5,10), (5,3), (5/2,3)`;
the vertex `(5/2, 3)` is interior with star ring `{(0,0), (5,10), (5,3)}`,
while the hull vertex `(0,0)` has hull successor `(10,0)` outside that ring. -/
def meshC3 : Triangulator :=
  okStateD ((Triangulator.from_vertices
    [Vertex.new 0 0, Vertex.new 10 0, Vertex.new 5 10,
     Vertex.new 5 3, Vertex.new (5 / 2) 3]).triangulate 300)

/-- The same mesh after deleting the interior vertex `(5/2, 3)`. -/
def meshC3del : Triangulator :=
  okStateD (meshC3.delete_vertex 300 (Vertex.new (5 / 2) 3))

/-- C3 counterexample: deleting the interior vertex `(5/2, 3)` succeeds, its
star is non-empty and all-solid, and the outer ghost triangle
`((5,10), (10,0), G)` stays in the mesh — but its adjacency entry keyed
`(G, (5,10))` is redirected by the merge to the inner ghost triangle
`((5,10), (5,3), G)`, so the ghost triangle's three adjacency entries are
not unchanged as the claim states. -/
theorem claim_C3_counterexample :
    errKind ((Triangulator.from_vertices
      [Vertex.new 0 0, Vertex.new 10 0, Vertex.new 5 10,
       Vertex.new 5 3, Vertex.new (5 / 2) 3]).triangulate 300) = none ∧
    starOf meshC3 (Vertex.new (5 / 2) 3) ≠ [] ∧
    (starOf meshC3 (Vertex.new (5 / 2) 3)).any Triangle.is_ghost = false ∧
    errKind (meshC3.delete_vertex 300 (Vertex.new (5 / 2) 3)) = none ∧
    Triangle.mk (Vertex.new 5 10) (Vertex.new 10 0) Vertex.new_ghost ∈
      meshC3.triangles ∧
    (Triangle.mk (Vertex.new 5 10) (Vertex.new 10 0) Vertex.new_ghost).is_ghost
      = true ∧
    Triangle.mk (Vertex.new 5 10) (Vertex.new 10 0) Vertex.new_ghost ∈
      meshC3del.triangles ∧
    adjFind meshC3.adjacency (Vertex.new_ghost, Vertex.new 5 10) =
      some (Triangle.mk (Vertex.new 5 10) (Vertex.new 10 0) Vertex.new_ghost) ∧
    adjFind meshC3del.adjacency (Vertex.new_ghost, Vertex.new 5 10) =
      some (Triangle.mk (Vertex.new 5 10) (Vertex.new 5 3) Vertex.new_ghost) ∧
    Triangle.teq (Triangle.mk (Vertex.new 5 10) (Vertex.new 10 0) Vertex.new_ghost)
      (Triangle.mk (Vertex.new 5 10) (Vertex.new 5 3) Vertex.new_ghost) = false := by
  with_unfolding_all decide

end Delaunay
